import Mathlib

/-!
Verification development for the keras tutorial notebooks
(`writing-custom-layers-and-models-with-keras.ipynb` and
`save-and-serialize-models-with-keras.ipynb`).

The notebooks define custom layers (`Linear`, `ComputeSum`,
`ActivityRegularizationLayer`, `OuterLayer`) and exercise the framework's
model-serialization contract (`get_config` / `from_config`,
`get_weights` / `set_weights`, `save` / `load_model`).  The custom layers
are embedded directly from the notebook source.  The framework operations
themselves live in the external ML framework, not in this repository, so
they are modelled from the specification's description of the weight
lifecycle and serialization contract; each such definition is marked
`Modelled from the spec:`.  Tensors are embedded as a shape together with
row-major rational data (rationals idealize exact float32 arithmetic, so
an exact-equality result implies numerical equivalence within any
nonnegative tolerance).
-/

/-- A numeric tensor: a shape and row-major flat data over ℚ. -/
structure Tensor where
  shape : List ℕ
  data : List ℚ
deriving DecidableEq, Repr

/-- The all-ones rank-2 tensor `tf.ones((n, d))`. -/
def Tensor.ones (n d : ℕ) : Tensor :=
  ⟨[n, d], List.replicate (n * d) 1⟩

/-- Modelled from the spec: `tf.matmul` on rank-2 tensors, owned by the
external framework.  `out[i, j] = Σ_k a[i, k] * b[k, j]`. -/
def matmul (a b : Tensor) : Tensor :=
  let n := a.shape.getD 0 0
  let d := a.shape.getD 1 0
  let u := b.shape.getD 1 0
  ⟨[n, u], (List.range (n * u)).map (fun idx =>
    let i := idx / u
    let j := idx % u
    ((List.range d).map
      (fun k => a.data.getD (i * d + k) 0 * b.data.getD (k * u + j) 0)).sum)⟩

/-- Modelled from the spec: broadcast addition of a rank-1 bias `b` to a
rank-2 tensor `a`, owned by the external framework (`a + b`). -/
def addBias (a bv : Tensor) : Tensor :=
  let u := a.shape.getD 1 0
  ⟨a.shape, a.data.enum.map (fun p => p.2 + bv.data.getD (p.1 % u) 0)⟩

/-- Modelled from the spec: `tf.reduce_sum(x, axis=0)` on a rank-2 tensor
(column sums), owned by the external framework. -/
def reduceSum0 (a : Tensor) : Tensor :=
  let n := a.shape.getD 0 0
  let d := a.shape.getD 1 0
  ⟨[d], (List.range d).map
    (fun j => ((List.range n).map (fun i => a.data.getD (i * d + j) 0)).sum)⟩

/-- Modelled from the spec: elementwise in-place addition
`v.assign_add(delta)` on a variable's value, owned by the external
framework. -/
def addVec (a b : Tensor) : Tensor :=
  ⟨a.shape, List.zipWith (· + ·) a.data b.data⟩

/-- A weight variable: a tensor value plus its trainable flag. -/
structure WeightVar where
  value : Tensor
  trainable : Bool
deriving DecidableEq, Repr

/-- Modelled from the spec: the framework's automatic weight tracking —
a weight variable set as a layer attribute is appended to the layer's
tracked weight list in creation order. -/
def addWeight (tracked : List WeightVar) (v : Tensor) (tr : Bool) :
    WeightVar × List WeightVar :=
  let w : WeightVar := ⟨v, tr⟩
  (w, tracked ++ [w])

/-- Modelled from the spec: `layer.trainable_weights` — the tracked
weights whose trainable flag is set. -/
def trainableWeights (ws : List WeightVar) : List WeightVar :=
  ws.filter (fun w => w.trainable)

/-- Modelled from the spec: `layer.non_trainable_weights` — the tracked
weights whose trainable flag is not set. -/
def nonTrainableWeights (ws : List WeightVar) : List WeightVar :=
  ws.filter (fun w => !w.trainable)

/-- The eager `Linear` layer of the custom-layers notebook: `__init__`
creates `w` of shape `(input_dim, units)` (random-normal draw, modelled by
the function `wInit` on flat indices) and `b` of shape `(units,)`
(zeros), both trainable, in that order. -/
structure LinearE where
  w : WeightVar
  b : WeightVar
  weights : List WeightVar
deriving DecidableEq, Repr

/-- Constructor of the eager `Linear` layer, creating `w` then `b`
through the framework's weight tracking. -/
def mkLinearE (units input_dim : ℕ) (wInit : ℕ → ℚ) : LinearE :=
  let s0 : List WeightVar := []
  let p1 := addWeight s0 ⟨[input_dim, units], (List.range (input_dim * units)).map wInit⟩ true
  let p2 := addWeight p1.2 ⟨[units], List.replicate units 0⟩ true
  ⟨p1.1, p2.1, p2.2⟩

/-- `Linear.call`: `tf.matmul(inputs, self.w) + self.b`.  The call makes
no assignment, so the layer comes back unchanged (state-passing form). -/
def LinearE.call (l : LinearE) (x : Tensor) : Tensor × LinearE :=
  (addBias (matmul x l.w.value) l.b.value, l)

/-- The `ComputeSum` layer: one non-trainable weight variable `total`,
initialized to zeros of length `input_dim`. -/
structure ComputeSum where
  total : WeightVar
deriving DecidableEq, Repr

/-- `ComputeSum.__init__`: `total = tf.Variable(tf.zeros((input_dim,)),
trainable=False)`. -/
def mkComputeSum (input_dim : ℕ) : ComputeSum :=
  ⟨⟨⟨[input_dim], List.replicate input_dim 0⟩, false⟩⟩

/-- The tracked weights of `ComputeSum`: just `total`. -/
def ComputeSum.weights (l : ComputeSum) : List WeightVar :=
  [l.total]

/-- `ComputeSum.call`: `self.total.assign_add(tf.reduce_sum(inputs,
axis=0)); return self.total` — the call mutates the layer's state
(state-passing form). -/
def ComputeSum.call (l : ComputeSum) (x : Tensor) : Tensor × ComputeSum :=
  let newTotal := addVec l.total.value (reduceSum0 x)
  (newTotal, ⟨⟨newTotal, l.total.trainable⟩⟩)

/-- The `ActivityRegularizationLayer`: stores a rate and adds one loss
value `rate * tf.reduce_sum(inputs)` per forward pass. -/
structure ActivityRegularizationLayer where
  rate : ℚ
deriving DecidableEq, Repr

/-- Forward pass of `ActivityRegularizationLayer`: appends its loss to
the accumulating loss list of the enclosing top-level call and returns
the inputs unchanged. -/
def ActivityRegularizationLayer.forward (l : ActivityRegularizationLayer)
    (x : Tensor) (losses : List ℚ) : Tensor × List ℚ :=
  (x, losses ++ [l.rate * x.data.sum])

/-- The `OuterLayer`: wraps an `ActivityRegularizationLayer(1e-2)` and
exposes the `losses` collected during the last top-level call. -/
structure OuterLayer where
  activity_reg : ActivityRegularizationLayer
  losses : List ℚ
deriving DecidableEq, Repr

/-- `OuterLayer()` — no losses yet, since the layer has never been
called. -/
def mkOuterLayer : OuterLayer :=
  ⟨⟨1 / 100⟩, []⟩

/-- Modelled from the spec: the framework's `Layer.__call__` resets the
`losses` property at the start of every top-level call, so that after the
call it holds exactly the losses created during that forward pass
(including those added by inner layers). -/
def OuterLayer.call (L : OuterLayer) (x : Tensor) : Tensor × OuterLayer :=
  let r := L.activity_reg.forward x []
  (r.1, ⟨L.activity_reg, r.2⟩)

/-- The deferred-build `Linear` layer: stores `units`; its weight
variables are created only when `build` runs (`vars = none` until then). -/
structure Linear where
  units : ℕ
  vars : Option (WeightVar × WeightVar)
deriving DecidableEq, Repr

/-- `Linear(units)` — unbuilt, no weights yet. -/
def mkLinear (units : ℕ) : Linear :=
  ⟨units, none⟩

/-- The last element of a shape, `input_shape[-1]`. -/
def lastDim (s : List ℕ) : ℕ :=
  s.getD (s.length - 1) 0

/-- `Linear.build(input_shape)`: creates `w` of shape
`(input_shape[-1], units)` and `b` of shape `(units,)`, both with
random-normal initializers (modelled by `wInit` and `bInit` on flat
indices), both trainable. -/
def Linear.build (l : Linear) (input_shape : List ℕ) (wInit bInit : ℕ → ℚ) : Linear :=
  let d := lastDim input_shape
  ⟨l.units,
    some (⟨⟨[d, l.units], (List.range (d * l.units)).map wInit⟩, true⟩,
          ⟨⟨[l.units], (List.range l.units).map bInit⟩, true⟩)⟩

/-- `Linear.call`: `tf.matmul(inputs, self.w) + self.b` on the built
weights (identity when unbuilt, a state the framework never calls it in). -/
def Linear.callBody (l : Linear) (x : Tensor) : Tensor :=
  match l.vars with
  | some wb => addBias (matmul x wb.1.value) wb.2.value
  | none => x

/-- Modelled from the spec: the framework's `Layer.__call__` — on the
first call it runs `build` with the shape of the actual input, then
`call`; on later calls the existing weights are reused and `build` is not
run again. -/
def Linear.applyCall (l : Linear) (wInit bInit : ℕ → ℚ) (x : Tensor) :
    Tensor × Linear :=
  match l.vars with
  | some _ => (l.callBody x, l)
  | none =>
    let lb := l.build x.shape wInit bInit
    (lb.callBody x, lb)

/-- The config of the deferred-build `Linear`:
`get_config = {'units': self.units}`. -/
structure LinearConfig where
  units : ℕ
deriving DecidableEq, Repr

/-- `Linear.get_config`: returns `{'units': self.units}`. -/
def Linear.get_config (l : Linear) : LinearConfig :=
  ⟨l.units⟩

/-- `Linear.from_config(config)`: `cls(**config)` — a fresh, unbuilt
instance of the class. -/
def Linear.from_config (c : LinearConfig) : Linear :=
  mkLinear c.units

/-- Activation functions used by the serialization notebook's MLP. -/
inductive Activation where
  | relu : Activation
  | linear : Activation
deriving DecidableEq, Repr

/-- Pointwise application of an activation. -/
def Activation.app : Activation → ℚ → ℚ
  | .relu, v => max v 0
  | .linear, v => v

/-- Elementwise activation on a tensor. -/
def actT (a : Activation) (t : Tensor) : Tensor :=
  ⟨t.shape, t.data.map a.app⟩

/-- One dense layer of a model architecture: its units and activation. -/
structure DenseConfig where
  units : ℕ
  activation : Activation
deriving DecidableEq, Repr

/-- Modelled from the spec: a model config — a serializable description
of the architecture (constructor arguments), independent of learned
values: the input dimension and the stack of dense layers. -/
structure ModelConfig where
  inputDim : ℕ
  layers : List DenseConfig
deriving DecidableEq, Repr

/-- Modelled from the spec: a model is an architecture (config) together
with its ordered weight collection (kernel and bias per dense layer, in
order), the two being orthogonal. -/
structure Model where
  config : ModelConfig
  weights : List Tensor
deriving DecidableEq, Repr

/-- Modelled from the spec: the forward pass of a dense stack — each
layer consumes its kernel and bias from the ordered weight list and
applies `act(matmul(x, k) + b)`. -/
def applyLayers : List DenseConfig → List Tensor → Tensor → Tensor
  | [], _, x => x
  | c :: cs, k :: b :: ws, x => applyLayers cs ws (actT c.activation (addBias (matmul x k) b))
  | _ :: _, _, x => x

/-- Modelled from the spec: `model.predict` — a pure function of the
architecture and the weights. -/
def Model.predict (m : Model) (x : Tensor) : Tensor :=
  applyLayers m.config.layers m.weights x

/-- Modelled from the spec: `model.get_config()` returns the
architecture description only. -/
def Model.get_config (m : Model) : ModelConfig :=
  m.config

/-- Modelled from the spec: `model.get_weights()` retrieves the ordered
weight collection (the state of the model). -/
def Model.get_weights (m : Model) : List Tensor :=
  m.weights

/-- The weight shapes a dense stack expects, given its input dimension:
kernel `(d, units)` then bias `(units,)` per layer. -/
def expectedShapes : ℕ → List DenseConfig → List (List ℕ)
  | _, [] => []
  | d, c :: cs => [d, c.units] :: [c.units] :: expectedShapes c.units cs

/-- The weight shapes determined by a model config. -/
def ModelConfig.weightShapes (c : ModelConfig) : List (List ℕ) :=
  expectedShapes c.inputDim c.layers

/-- A freshly initialized tensor of a given shape, the initializer
(random draw) modelled as a function of the flat index. -/
def initTensor (init : ℕ → ℚ) (s : List ℕ) : Tensor :=
  ⟨s, (List.range s.prod).map init⟩

/-- Modelled from the spec: `Model.from_config(config)` reconstructs an
untrained instance — same architecture, freshly initialized weights of
the shapes the config determines. -/
def Model.from_config (c : ModelConfig) (init : ℕ → ℚ) : Model :=
  ⟨c, c.weightShapes.map (initTensor init)⟩

/-- Modelled from the spec: `model.set_weights(ws)` mutates the weight
collection in place; it succeeds exactly when the given shapes match the
model's current weight shapes, and never touches the architecture. -/
def Model.set_weights (m : Model) (ws : List Tensor) : Option Model :=
  if ws.map Tensor.shape = m.weights.map Tensor.shape then
    some ⟨m.config, ws⟩
  else
    none

/-- Modelled from the spec: what `model.save` persists (whether to a
single HDF5 file or to the SavedModel directory format): the architecture
and the weight values. -/
structure SavedModelArtifact where
  config : ModelConfig
  weights : List Tensor
deriving DecidableEq, Repr

/-- Modelled from the spec: `model.save` serializes architecture and
weights. -/
def Model.save (m : Model) : SavedModelArtifact :=
  ⟨m.config, m.weights⟩

/-- Modelled from the spec: `keras.models.load_model` rebuilds the model
from the persisted architecture and installs the persisted weights. -/
def load_model (a : SavedModelArtifact) : Model :=
  ⟨a.config, a.weights⟩

/-- `np.testing.assert_allclose` on flat data: same length, and each
pair within `atol + rtol * |expected|`. -/
def allcloseData (xs ys : List ℚ) (rtol atol : ℚ) : Prop :=
  xs.length = ys.length ∧ ∀ p ∈ List.zip xs ys, |p.1 - p.2| ≤ atol + rtol * |p.2|

/-- `assert_allclose` on tensors: equal shapes and close data. -/
def Tensor.allclose (a b : Tensor) (rtol atol : ℚ) : Prop :=
  a.shape = b.shape ∧ allcloseData a.data b.data rtol atol

theorem mem_zip_self : ∀ (l : List ℚ) (p : ℚ × ℚ), p ∈ List.zip l l → p.1 = p.2 := by
  intro l
  induction l with
  | nil => intro p hp; cases hp
  | cons a t ih =>
    intro p hp
    rw [List.zip_cons_cons] at hp
    rcases List.mem_cons.mp hp with h | h
    · rw [h]
    · exact ih p h

theorem allcloseData_refl (v : List ℚ) (rtol atol : ℚ) (h1 : 0 ≤ rtol) (h2 : 0 ≤ atol) :
    allcloseData v v rtol atol := by
  refine ⟨rfl, ?_⟩
  intro p hp
  rw [mem_zip_self v p hp, sub_self, abs_zero]
  exact add_nonneg h2 (mul_nonneg h1 (abs_nonneg _))

theorem Tensor.allclose_refl (a : Tensor) (rtol atol : ℚ) (h1 : 0 ≤ rtol) (h2 : 0 ≤ atol) :
    Tensor.allclose a a rtol atol :=
  ⟨rfl, allcloseData_refl a.data rtol atol h1 h2⟩

/-- C1: building a new model via `Model.from_config (model.get_config)` and
then setting the saved weights with `set_weights (model.get_weights)`
reconstructs the full model behavior: `set_weights` succeeds and the new
model's predict output equals the original model's predict output on every
input, provided the saved weight shapes match the new model's weight
shapes exactly. -/
theorem C1_from_config_set_weights_reconstructs (m : Model) (init : ℕ → ℚ)
    (h : (Model.get_weights m).map Tensor.shape =
      (Model.from_config (Model.get_config m) init).weights.map Tensor.shape) :
    ∃ m2 : Model,
      (Model.from_config (Model.get_config m) init).set_weights (Model.get_weights m) = some m2 ∧
      ∀ x, m2.predict x = m.predict x := by
  refine ⟨⟨m.config, m.weights⟩, ?_, fun x => rfl⟩
  simp only [Model.set_weights, if_pos h]
  rfl

theorem C1_witness :
    ((Model.get_weights ⟨⟨1, [⟨1, Activation.linear⟩]⟩, [⟨[1, 1], [2]⟩, ⟨[1], [3]⟩]⟩).map Tensor.shape =
      (Model.from_config
        (Model.get_config ⟨⟨1, [⟨1, Activation.linear⟩]⟩, [⟨[1, 1], [2]⟩, ⟨[1], [3]⟩]⟩)
        (fun _ => 0)).weights.map Tensor.shape) ∧
    (∃ m2 : Model,
      (Model.from_config
        (Model.get_config ⟨⟨1, [⟨1, Activation.linear⟩]⟩, [⟨[1, 1], [2]⟩, ⟨[1], [3]⟩]⟩)
        (fun _ => 0)).set_weights
        (Model.get_weights ⟨⟨1, [⟨1, Activation.linear⟩]⟩, [⟨[1, 1], [2]⟩, ⟨[1], [3]⟩]⟩) = some m2 ∧
      ∀ x, m2.predict x =
        (⟨⟨1, [⟨1, Activation.linear⟩]⟩, [⟨[1, 1], [2]⟩, ⟨[1], [3]⟩]⟩ : Model).predict x) :=
  ⟨by decide, C1_from_config_set_weights_reconstructs _ (fun _ => 0) (by decide)⟩

/-- C2: serializing with `Model.save` and deserializing with `load_model`
yields a model numerically equivalent to the original: the round trip is
the identity, and on every input the reloaded model's predict output is
allclose to the original's with relative and absolute tolerance 1e-6. -/
theorem C2_save_load_model_equivalent (m : Model) :
    load_model (Model.save m) = m ∧
    ∀ x, Tensor.allclose ((load_model (Model.save m)).predict x) (m.predict x)
      (1 / 1000000) (1 / 1000000) :=
  ⟨rfl, fun x => Tensor.allclose_refl _ _ _ (by norm_num) (by norm_num)⟩

/-- C3 counterexample: `ComputeSum` is a layer whose call is not pure —
at `ComputeSum(2)` applied to `tf.ones((2, 2))`, the first call returns
`[2, 2]`, changes the layer's `total` weight, and a second call on the
very same input returns `[4, 4] ≠ [2, 2]`. -/
theorem C3_counterexample_ComputeSum_stateful :
    (((mkComputeSum 2).call (Tensor.ones 2 2)).1 = ⟨[2], [2, 2]⟩) ∧
    ((((mkComputeSum 2).call (Tensor.ones 2 2)).2.call (Tensor.ones 2 2)).1 = ⟨[2], [4, 4]⟩) ∧
    (((mkComputeSum 2).call (Tensor.ones 2 2)).2 ≠ mkComputeSum 2) ∧
    ((((mkComputeSum 2).call (Tensor.ones 2 2)).2.call (Tensor.ones 2 2)).1 ≠
      ((mkComputeSum 2).call (Tensor.ones 2 2)).1) := by
  have h1 : (mkComputeSum 2).call (Tensor.ones 2 2) =
      (⟨[2], [2, 2]⟩, ⟨⟨⟨[2], [2, 2]⟩, false⟩⟩) := by
    norm_num [mkComputeSum, ComputeSum.call, addVec, reduceSum0, Tensor.ones,
      List.range_succ, List.replicate]
  have h2 : (ComputeSum.mk ⟨⟨[2], [2, 2]⟩, false⟩).call (Tensor.ones 2 2) =
      (⟨[2], [4, 4]⟩, ⟨⟨⟨[2], [4, 4]⟩, false⟩⟩) := by
    norm_num [ComputeSum.call, addVec, reduceSum0, Tensor.ones,
      List.range_succ, List.replicate]
  refine ⟨?_, ?_, ?_, ?_⟩
  · simp [h1]
  · simp [h1, h2]
  · simp only [h1]
    norm_num [mkComputeSum, List.replicate, ComputeSum.mk.injEq, WeightVar.mk.injEq,
      Tensor.mk.injEq]
  · simp only [h1, h2]
    norm_num [Tensor.mk.injEq]

/-- C3 (amended): for a layer whose `call` performs no assignment to its
weight variables — such as `Linear` — calling the layer is a pure
transformation: it leaves the layer's state unchanged, and calling the
same layer twice on the same input returns the same output.  (This fails
for layers whose call assigns to a weight, such as `ComputeSum`.) -/
theorem C3_amended_Linear_call_pure (l : LinearE) (x : Tensor) :
    (l.call x).2 = l ∧ ((l.call x).2.call x).1 = (l.call x).1 :=
  ⟨rfl, rfl⟩

/-- C4: the config round-trips — `from_config (get_config x)` succeeds
and returns a fresh instance of the same class whose own `get_config`
equals the original config, with freshly initialized (untrained) weights:
for the custom `Linear` layer the fresh instance is unbuilt (no weights
yet), and for a `Model` the fresh instance carries exactly the freshly
initialized weights determined by the config. -/
theorem C4_from_config_get_config_round_trip :
    (∀ l : Linear,
      (Linear.from_config (Linear.get_config l)).get_config = Linear.get_config l ∧
      (Linear.from_config (Linear.get_config l)).vars = none) ∧
    (∀ (m : Model) (init : ℕ → ℚ),
      (Model.from_config (Model.get_config m) init).get_config = Model.get_config m ∧
      (Model.from_config (Model.get_config m) init).get_weights =
        (Model.get_config m).weightShapes.map (initTensor init)) :=
  ⟨fun _ => ⟨rfl, rfl⟩, fun _ _ => ⟨rfl, rfl⟩⟩

/-- C5 counterexample: the claim's final clause fails as a universal
statement — for the concrete weightless model `⟨⟨1, []⟩, []⟩` (an
architecture with no dense layers, hence no weights), the model
reconstructed from the config alone reproduces the original model's
predictions on every input: there is no input on which they differ. -/
theorem C5_counterexample_weightless_model :
    ¬ ∃ x : Tensor,
      (Model.from_config (Model.get_config ⟨⟨1, []⟩, []⟩) (fun _ => 0)).predict x ≠
        (⟨⟨1, []⟩, []⟩ : Model).predict x := by
  intro hx
  obtain ⟨x, hne⟩ := hx
  exact hne rfl

/-- C5 (amended): the config is independent of the learned weight values
— models sharing an architecture have equal `get_config` regardless of
their weights, and `set_weights` never changes `get_config`; and a model
reconstructed from the config alone does not in general reproduce the
original model's predictions: there exist a model, weights and an input
on which they differ (though for models whose predictions use no weight,
or whose weights coincide with the fresh initialization, the
reconstruction reproduces predictions on every input). -/
theorem C5_amended_config_weight_independence :
    (∀ (c : ModelConfig) (w1 w2 : List Tensor),
      Model.get_config ⟨c, w1⟩ = Model.get_config ⟨c, w2⟩) ∧
    (∀ (m m2 : Model) (ws : List Tensor),
      m.set_weights ws = some m2 → m2.get_config = m.get_config) ∧
    (∃ (m : Model) (init : ℕ → ℚ) (x : Tensor),
      (Model.from_config (Model.get_config m) init).predict x ≠ m.predict x) := by
  refine ⟨fun c w1 w2 => rfl, ?_, ?_⟩
  · intro m m2 ws h
    unfold Model.set_weights at h
    split at h
    · cases h
      rfl
    · cases h
  · refine ⟨⟨⟨1, [⟨1, Activation.linear⟩]⟩, [⟨[1, 1], [1]⟩, ⟨[1], [1]⟩]⟩,
      fun _ => 0, ⟨[1, 1], [1]⟩, ?_⟩
    norm_num [Model.predict, Model.from_config, Model.get_config,
      ModelConfig.weightShapes, expectedShapes, initTensor, applyLayers, actT,
      addBias, matmul, Activation.app, List.range_succ, List.enum, Tensor.mk.injEq]

theorem C5_amended_witness :
    Model.get_config ⟨⟨1, []⟩, [⟨[1], [5]⟩]⟩ = Model.get_config ⟨⟨1, []⟩, [⟨[1], [7]⟩]⟩ :=
  C5_amended_config_weight_independence.2.1 ⟨⟨1, []⟩, [⟨[1], [7]⟩]⟩ ⟨⟨1, []⟩, [⟨[1], [5]⟩]⟩
    [⟨[1], [5]⟩] (by decide)

/-- C6: the weight round-trip is the identity — for every model,
`set_weights (get_weights m)` succeeds and leaves the model's behavior
unchanged: afterwards `predict` returns the same output as before on
every input. -/
theorem C6_set_get_weights_identity (m : Model) :
    ∃ m2 : Model, Model.set_weights m (Model.get_weights m) = some m2 ∧
      ∀ x, m2.predict x = m.predict x := by
  refine ⟨m, ?_, fun x => rfl⟩
  simp only [Model.set_weights, Model.get_weights, if_pos rfl]
  rfl

/-- C7: weight variables created as layer attributes are automatically
tracked in creation order — for the `Linear` layer with weight variables
`w` and `b`, `layer.weights` equals exactly the list `[w, b]` in that
order (the notebook's `assert linear_layer.weights == [linear_layer.w,
linear_layer.b]`). -/
theorem C7_weights_tracked_in_creation_order (units input_dim : ℕ) (wInit : ℕ → ℚ) :
    (mkLinearE units input_dim wInit).weights =
      [(mkLinearE units input_dim wInit).w, (mkLinearE units input_dim wInit).b] :=
  rfl

/-- C8: every tracked weight is either trainable or non-trainable, and
the weights collection is the disjoint union of `trainable_weights` and
`non_trainable_weights`; a weight created with `trainable=False` is
counted in `weights` and in `non_trainable_weights` but never appears in
`trainable_weights` — as `ComputeSum(2)` shows concretely (1 weight,
1 non-trainable, no trainable ones). -/
theorem C8_trainable_weight_partition :
    (∀ ws : List WeightVar, List.Perm (trainableWeights ws ++ nonTrainableWeights ws) ws) ∧
    (∀ (ws : List WeightVar) (w : WeightVar), w ∈ ws → w.trainable = false →
      w ∈ nonTrainableWeights ws ∧ w ∉ trainableWeights ws) ∧
    ((mkComputeSum 2).weights.length = 1 ∧
      nonTrainableWeights ((mkComputeSum 2).weights) = (mkComputeSum 2).weights ∧
      trainableWeights ((mkComputeSum 2).weights) = []) := by
  refine ⟨fun ws => List.filter_append_perm _ ws, ?_, by decide⟩
  intro ws w hmem htr
  constructor
  · simp [nonTrainableWeights, List.mem_filter, hmem, htr]
  · simp [trainableWeights, List.mem_filter, htr]

theorem C8_witness :
    (⟨⟨[1], [0]⟩, false⟩ : WeightVar) ∈ nonTrainableWeights [⟨⟨[1], [0]⟩, false⟩] ∧
    (⟨⟨[1], [0]⟩, false⟩ : WeightVar) ∉ trainableWeights [⟨⟨[1], [0]⟩, false⟩] :=
  C8_trainable_weight_partition.2.1 [⟨⟨[1], [0]⟩, false⟩] ⟨⟨[1], [0]⟩, false⟩
    (by decide) rfl

/-- C9: a layer's `losses` collection is empty before it has ever been
called, and it is reset at the start of every top-level call, so after
each call it contains exactly the losses created during that most recent
forward pass: calling `OuterLayer` (which adds one loss per forward pass
through its inner `ActivityRegularizationLayer`) twice leaves
`len(layer.losses)` equal to 1, not 2. -/
theorem C9_losses_reset_each_call :
    mkOuterLayer.losses = [] ∧
    (∀ (L : OuterLayer) (x : Tensor), ((L.call x).2).losses.length = 1) ∧
    (∀ (L : OuterLayer) (x1 x2 : Tensor),
      ((((L.call x1).2).call x2).2).losses.length = 1) :=
  ⟨rfl, fun _ _ => rfl, fun _ _ _ => rfl⟩

/-- C10: for the deferred-build `Linear(units)`, the first call on an
input of shape `(n, d)` automatically runs `build` with the actual input
shape, creating `w` of shape `(d, units)` and `b` of shape `(units,)`,
and returns an output of shape `(n, units)`; a second call on the same
input reuses the same weights without rebuilding and returns the same
output and the same layer state. -/
theorem C10_first_call_builds_weights (units n d : ℕ) (wInit bInit : ℕ → ℚ)
    (x : Tensor) (h : x.shape = [n, d]) :
    ∃ w b : WeightVar,
      ((mkLinear units).applyCall wInit bInit x).2.vars = some (w, b) ∧
      w.value.shape = [d, units] ∧
      b.value.shape = [units] ∧
      ((mkLinear units).applyCall wInit bInit x).1.shape = [n, units] ∧
      (((mkLinear units).applyCall wInit bInit x).2.applyCall wInit bInit x) =
        (((mkLinear units).applyCall wInit bInit x).1,
          ((mkLinear units).applyCall wInit bInit x).2) := by
  obtain ⟨s, dat⟩ := x
  cases h
  exact ⟨_, _, rfl, rfl, rfl, rfl, rfl⟩

theorem C10_witness :
    (Tensor.mk [1, 1] [1]).shape = [1, 1] ∧
    (∃ w b : WeightVar,
      ((mkLinear 2).applyCall (fun _ => 0) (fun _ => 0) (Tensor.mk [1, 1] [1])).2.vars =
        some (w, b) ∧
      w.value.shape = [1, 2] ∧
      b.value.shape = [2] ∧
      ((mkLinear 2).applyCall (fun _ => 0) (fun _ => 0) (Tensor.mk [1, 1] [1])).1.shape =
        [1, 2] ∧
      (((mkLinear 2).applyCall (fun _ => 0) (fun _ => 0) (Tensor.mk [1, 1] [1])).2.applyCall
          (fun _ => 0) (fun _ => 0) (Tensor.mk [1, 1] [1])) =
        (((mkLinear 2).applyCall (fun _ => 0) (fun _ => 0) (Tensor.mk [1, 1] [1])).1,
          ((mkLinear 2).applyCall (fun _ => 0) (fun _ => 0) (Tensor.mk [1, 1] [1])).2)) :=
  ⟨rfl, C10_first_call_builds_weights 2 1 1 (fun _ => 0) (fun _ => 0)
    (Tensor.mk [1, 1] [1]) rfl⟩
